import Mathlib

/-!
Verification of the sidecar lifecycle supervisor in
`src/apps/desktop/src-tauri/src/main.rs` (patze-control desktop app).

The Rust source interacts with the operating system (TCP binding, the
filesystem, process spawning, wall-clock time).  Each OS interaction is
modelled by an explicit environment record passed to the embedded
function; the function bodies mirror the Rust control flow line by line.
Times are in milliseconds, ports and process ids are natural numbers.
-/

/-- Network environment: what the OS would answer to the two kinds of
bind probes that `pick_port` performs.  `canBind p` says binding
`127.0.0.1:p` would succeed; `ephemeral` is the port assigned by binding
`127.0.0.1:0` (`none` when even that bind fails). -/
structure NetEnv where
  canBind : Nat → Bool
  ephemeral : Option Nat

/-- Embeds `find_free_port`: bind port 0, read back the assigned port,
`unwrap_or(9700)` on failure. -/
def find_free_port (env : NetEnv) : Nat :=
  env.ephemeral.getD 9700

/-- Embeds `is_port_in_use`: the port is in use iff binding it fails. -/
def is_port_in_use (env : NetEnv) (port : Nat) : Bool :=
  !(env.canBind port)

/-- Embeds `pick_port`: return 9700 if it is not in use, otherwise ask
the OS for an ephemeral port. -/
def pick_port (env : NetEnv) : Nat :=
  if !(is_port_in_use env 9700) then 9700
  else find_free_port env

/-- Environment in which port 9700 is occupied and the OS probe for an
ephemeral port itself fails. -/
def netEnvProbeFails : NetEnv :=
  { canBind := fun _ => false, ephemeral := none }

/-- Environment in which port 9700 is free. -/
def netEnvFree : NetEnv :=
  { canBind := fun _ => true, ephemeral := some 40000 }

/-- Environment in which port 9700 is occupied and the OS assigns
ephemeral port 49152. -/
def netEnvBusy : NetEnv :=
  { canBind := fun p => !(p == 9700), ephemeral := some 49152 }

/-- C2 counterexample: in the execution where port 9700 is occupied but
the OS probe for an ephemeral port also fails, `pick_port` returns 9700
itself, not an OS-assigned port different from 9700.  This refutes the
claim as stated, which quantified over every execution with 9700
occupied. -/
theorem pick_port_occupied_not_always_ne_9700 :
    is_port_in_use netEnvProbeFails 9700 = true ∧
    pick_port netEnvProbeFails = 9700 := by
  constructor <;> rfl

/-- C2 (amended): if port 9700 is occupied and the OS probe succeeds,
assigning an ephemeral port `p` — which, being assigned from the free
pool while 9700 is occupied, differs from 9700 — then `pick_port`
returns that OS-assigned port `p ≠ 9700`. -/
theorem pick_port_occupied_returns_ephemeral (env : NetEnv) (p : Nat)
    (hbusy : env.canBind 9700 = false)
    (heph : env.ephemeral = some p)
    (hne : p ≠ 9700) :
    pick_port env = p ∧ p ≠ 9700 := by
  refine ⟨?_, hne⟩
  simp [pick_port, is_port_in_use, find_free_port, hbusy, heph]

/-- Witness for the amended C2 at a concrete environment. -/
theorem pick_port_occupied_returns_ephemeral_witness :
    pick_port netEnvBusy = 49152 ∧ (49152 : Nat) ≠ 9700 :=
  pick_port_occupied_returns_ephemeral netEnvBusy 49152 (by rfl) (by rfl)
    (by decide)

/-- C3: `pick_port` returns 9700 when 9700 is currently bindable;
otherwise it returns the ephemeral port the OS assigned to the bind-0
probe; and when that probe itself fails it still returns the default
9700.  Being a total function into `Nat`, it always returns a port and
raises no error. -/
theorem pick_port_policy (env : NetEnv) :
    (env.canBind 9700 = true → pick_port env = 9700) ∧
    (∀ p : Nat, env.canBind 9700 = false → env.ephemeral = some p →
      pick_port env = p) ∧
    (env.canBind 9700 = false → env.ephemeral = none →
      pick_port env = 9700) := by
  refine ⟨fun h => ?_, fun p h h2 => ?_, fun h h2 => ?_⟩
  · simp [pick_port, is_port_in_use, find_free_port, h]
  · simp [pick_port, is_port_in_use, find_free_port, h, h2]
  · simp [pick_port, is_port_in_use, find_free_port, h, h2]

/-- Witness for C3: each branch of the policy evaluated at a concrete
environment. -/
theorem pick_port_policy_witness :
    pick_port netEnvFree = 9700 ∧
    pick_port netEnvBusy = 49152 ∧
    pick_port netEnvProbeFails = 9700 :=
  ⟨(pick_port_policy netEnvFree).1 (by rfl),
   (pick_port_policy netEnvBusy).2.1 49152 (by rfl) (by rfl),
   (pick_port_policy netEnvProbeFails).2.2 (by rfl) (by rfl)⟩

/-- Filesystem paths, modelled as their list of components. -/
abbrev FPath := List String

/-- Embeds Rust `Path::parent`: drop the last component; `none` once the
chain is exhausted (filesystem root). -/
def pathParent : FPath → Option FPath
  | [] => none
  | l => some l.dropLast

/-- Render a path the way `to_string_lossy` does, for the dev-mode
command argument. -/
def pathDisplay (p : FPath) : String :=
  String.intercalate "/" p

/-- Target operating system, mirroring the `cfg!(target_os = ...)`
compile-time branches of `current_target_triple`. -/
inductive TOs where
  | linux | macos | windows | otherOs
deriving DecidableEq

/-- Target CPU architecture, mirroring `cfg!(target_arch = ...)`. -/
inductive TArch where
  | x86_64 | aarch64 | otherArch
deriving DecidableEq

/-- Embeds `current_target_triple`: one fixed identifier per supported
OS/architecture pair, `"unknown"` for any other combination. -/
def current_target_triple : TOs → TArch → String
  | .linux, .x86_64 => "x86_64-unknown-linux-gnu"
  | .linux, .aarch64 => "aarch64-unknown-linux-gnu"
  | .macos, .x86_64 => "x86_64-apple-darwin"
  | .macos, .aarch64 => "aarch64-apple-darwin"
  | .windows, .x86_64 => "x86_64-pc-windows-msvc"
  | _, _ => "unknown"

/-- Filesystem environment: the path of the running executable
(`std::env::current_exe`), the existence probe (`Path::exists`) and the
current working directory (`std::env::current_dir`).  `none` models the
corresponding OS call failing. -/
structure FsEnv where
  currentExe : Option FPath
  pathOnDisk : FPath → Bool
  cwd : Option FPath

/-- Embeds `resolve_sidecar_path`: in the directory containing the
running executable, look for `patze-api-<triple>` first, then for the
generic `patze-api`; return the first that exists, `none` otherwise. -/
def resolve_sidecar_path (env : FsEnv) (os : TOs) (arch : TArch) :
    Option FPath :=
  env.currentExe.bind fun exe =>
    (pathParent exe).bind fun dir =>
      let name := "patze-api-" ++ current_target_triple os arch
      if env.pathOnDisk (dir ++ [name]) then some (dir ++ [name])
      else if env.pathOnDisk (dir ++ ["patze-api"]) then
        some (dir ++ ["patze-api"])
      else none

/-- The fixed project-relative dev script path
`apps/api-server/src/index.ts`. -/
def devScriptRel : FPath := ["apps", "api-server", "src", "index.ts"]

/-- Embeds the `for _ in 0..6` loop of `resolve_dev_sidecar`: at each of
at most `n` iterations, check `dir/apps/api-server/src/index.ts`; on a
hit return the `tsx <script>` command, otherwise step to the parent
directory, returning `none` early when the chain hits the root (the `?`
on `dir.parent()`). -/
def resolve_dev_loop (env : FsEnv) : FPath → Nat → Option (String × List String)
  | _, 0 => none
  | dir, n + 1 =>
    let script := dir ++ devScriptRel
    if env.pathOnDisk script then some ("tsx", [pathDisplay script])
    else
      match pathParent dir with
      | none => none
      | some d => resolve_dev_loop env d n

/-- Embeds `resolve_dev_sidecar`: run the ancestor walk from the current
working directory with the loop bound 6. -/
def resolve_dev_sidecar (env : FsEnv) : Option (String × List String) :=
  env.cwd.bind fun cwd => resolve_dev_loop env cwd 6

/-- The launch command `spawn_api_server` settles on: a packaged binary
path, or a dev-mode interpreter command. -/
inductive Launch where
  | packaged (bin : FPath)
  | dev (cmd : String) (args : List String)
deriving DecidableEq

/-- Embeds the command-selection logic of `spawn_api_server`: the
packaged binary branch is tried first, the dev-script branch only when
it yields nothing, and `None` when both fail. -/
def spawn_api_server_choice (env : FsEnv) (os : TOs) (arch : TArch) :
    Option Launch :=
  match resolve_sidecar_path env os arch with
  | some bin => some (.packaged bin)
  | none =>
    match resolve_dev_sidecar env with
    | some (cmd, args) => some (.dev cmd args)
    | none => none

/-- The chain of directories the dev-mode walk examines: at most `n` of
them, starting at `d` and stopping early at the filesystem root. -/
def ancestorChain : FPath → Nat → List FPath
  | _, 0 => []
  | d, n + 1 =>
    d :: (match pathParent d with
          | none => []
          | some p => ancestorChain p n)

theorem pathParent_of_ne_nil (l : FPath) (h : l ≠ []) :
    pathParent l = some l.dropLast := by
  cases l with
  | nil => exact absurd rfl h
  | cons a t => rfl

theorem ancestorChain_length_le (n : Nat) :
    ∀ d : FPath, (ancestorChain d n).length ≤ n := by
  induction n with
  | zero => intro d; simp [ancestorChain]
  | succ n ih =>
    intro d
    simp only [ancestorChain, List.length_cons]
    cases hp : pathParent d with
    | none => simp
    | some p => simpa using ih p

theorem resolve_dev_loop_none_iff (env : FsEnv) (n : Nat) :
    ∀ d : FPath,
      (resolve_dev_loop env d n = none ↔
        ∀ x ∈ ancestorChain d n, env.pathOnDisk (x ++ devScriptRel) = false) := by
  induction n with
  | zero => intro d; simp [resolve_dev_loop, ancestorChain]
  | succ n ih =>
    intro d
    by_cases h : env.pathOnDisk (d ++ devScriptRel)
    · simp [resolve_dev_loop, ancestorChain, h]
    · cases hp : pathParent d with
      | none =>
        simp [resolve_dev_loop, ancestorChain, hp,
          Bool.not_eq_true _ ▸ h]
      | some p =>
        simp only [resolve_dev_loop, ancestorChain, hp,
          Bool.not_eq_true _ ▸ h, if_neg]
        simp only [List.mem_cons, forall_eq_or_imp]
        constructor
        · intro hnone
          exact ⟨Bool.not_eq_true _ ▸ h, (ih p).mp hnone⟩
        · intro hall
          exact (ih p).mpr hall.2

/-- C6: with a current working directory `c`, the development-mode walk
examines at most the 6 directories of the ancestor chain starting at
and including `c` (fewer when the chain reaches the filesystem root
first), and returns `none` exactly when the known script path
`apps/api-server/src/index.ts` is absent from every examined directory —
in particular it never looks further than 6 levels up. -/
theorem resolve_dev_sidecar_bounded_walk (env : FsEnv) (c : FPath)
    (hcwd : env.cwd = some c) :
    (resolve_dev_sidecar env = none ↔
      ∀ d ∈ ancestorChain c 6, env.pathOnDisk (d ++ devScriptRel) = false) ∧
    (ancestorChain c 6).length ≤ 6 := by
  constructor
  · rw [resolve_dev_sidecar, hcwd, Option.some_bind]
    exact resolve_dev_loop_none_iff env 6 c
  · exact ancestorChain_length_le 6 c

/-- Environment whose working directory is nine levels deep and whose
only copy of the dev script lives seven levels up — deeper than the walk
is allowed to go. -/
def fsEnvDeep : FsEnv :=
  { currentExe := none
    pathOnDisk := fun p => p == ["r", "a"] ++ devScriptRel
    cwd := some ["r", "a", "b", "c", "d", "e", "f", "g", "h"] }

/-- Witness for C6: although the script does exist seven levels above
the working directory, the 6-bounded walk reports not-found instead of
recursing further. -/
theorem resolve_dev_sidecar_bounded_walk_witness :
    resolve_dev_sidecar fsEnvDeep = none :=
  (resolve_dev_sidecar_bounded_walk fsEnvDeep
      ["r", "a", "b", "c", "d", "e", "f", "g", "h"] rfl).1.mpr (by decide)

/-- C5: whenever the platform-qualified sidecar binary exists next to
the running executable, resolution returns exactly that binary, and the
spawn logic launches it — regardless of whether the generic fallback
binary or the development-mode script also exist. -/
theorem resolve_prefers_qualified_binary (env : FsEnv) (os : TOs)
    (arch : TArch) (exe : FPath)
    (hexe : env.currentExe = some exe) (hne : exe ≠ [])
    (hq : env.pathOnDisk
      (exe.dropLast ++ ["patze-api-" ++ current_target_triple os arch]) =
        true) :
    resolve_sidecar_path env os arch =
      some (exe.dropLast ++ ["patze-api-" ++ current_target_triple os arch]) ∧
    spawn_api_server_choice env os arch =
      some (.packaged
        (exe.dropLast ++ ["patze-api-" ++ current_target_triple os arch])) := by
  have hres : resolve_sidecar_path env os arch =
      some (exe.dropLast ++ ["patze-api-" ++ current_target_triple os arch]) := by
    rw [resolve_sidecar_path, hexe, Option.some_bind,
      pathParent_of_ne_nil exe hne, Option.some_bind]
    simp [hq]
  exact ⟨hres, by rw [spawn_api_server_choice, hres]⟩

/-- Environment in which the qualified binary, the generic fallback
binary and the dev script all exist. -/
def fsEnvAll : FsEnv :=
  { currentExe := some ["opt", "patze", "app"]
    pathOnDisk := fun _ => true
    cwd := some ["opt", "patze"] }

/-- Witness for C5 at a concrete environment where every candidate
exists on disk: the qualified binary wins. -/
theorem resolve_prefers_qualified_binary_witness :
    resolve_sidecar_path fsEnvAll .linux .x86_64 =
      some (["opt", "patze"] ++
        ["patze-api-" ++ current_target_triple .linux .x86_64]) ∧
    spawn_api_server_choice fsEnvAll .linux .x86_64 =
      some (.packaged (["opt", "patze"] ++
        ["patze-api-" ++ current_target_triple .linux .x86_64])) :=
  resolve_prefers_qualified_binary fsEnvAll .linux .x86_64
    ["opt", "patze", "app"] rfl (by decide) (by rfl)

/-- Embeds `SidecarState`: the optional child process handle (modelled
by its pid) and the chosen port. -/
structure SidecarState where
  child : Option Nat
  port : Nat
deriving DecidableEq

/-- Embeds the `get_api_port` command body
`state.0.lock().map(|s| s.port).unwrap_or(9700)`.  The argument is the
outcome of `Mutex::lock`: `some s` on success, `none` when the lock
cannot be acquired (poisoned). -/
def get_api_port (lockRes : Option SidecarState) : Nat :=
  (lockRes.map fun s => s.port).getD 9700

/-- Embeds the window-destroyed teardown handler: if the lock is
acquired, kill the recorded child (when present) and clear the handle;
if the lock cannot be acquired, do nothing.  Returns the new state
together with the pid that `kill_child` was invoked on, if any. -/
def teardown (lockOk : Bool) (st : SidecarState) :
    SidecarState × Option Nat :=
  if lockOk then
    match st.child with
    | some pid => ({ st with child := none }, some pid)
    | none => ({ st with child := none }, none)
  else (st, none)

/-- Embeds the start of `main`: pick a port, attempt to resolve and
spawn the sidecar, and build the initial `SidecarState`.  `spawnRes`
models the OS outcome of `Command::spawn().ok()` when a launch command
was resolved (`some pid` on success, `none` on spawn failure); when no
command was resolved, spawn is never attempted and no child is
recorded. -/
def mainInit (net : NetEnv) (fs : FsEnv) (os : TOs) (arch : TArch)
    (spawnRes : Option Nat) : SidecarState :=
  { port := pick_port net
    child :=
      match spawn_api_server_choice fs os arch with
      | some _ => spawnRes
      | none => none }

/-- Operations the host application performs on the shared state after
startup: a port query (which never mutates) or a teardown event with
the given lock outcome. -/
inductive HostOp where
  | query
  | teardownEv (lockOk : Bool)

/-- State transition of one host operation. -/
def hostStep (st : SidecarState) : HostOp → SidecarState
  | .query => st
  | .teardownEv lockOk => (teardown lockOk st).1

/-- Run a sequence of host operations from a state. -/
def runHost (st : SidecarState) (ops : List HostOp) : SidecarState :=
  ops.foldl hostStep st

theorem hostStep_port (st : SidecarState) (op : HostOp) :
    (hostStep st op).port = st.port := by
  cases op with
  | query => rfl
  | teardownEv lockOk =>
    cases lockOk with
    | false => rfl
    | true => cases h : st.child <;> simp [hostStep, teardown, h]

theorem runHost_port (ops : List HostOp) :
    ∀ st : SidecarState, (runHost st ops).port = st.port := by
  induction ops with
  | nil => intro st; rfl
  | cons op rest ih =>
    intro st
    rw [runHost, List.foldl_cons]
    exact (ih (hostStep st op)).trans (hostStep_port st op)

/-- C7: teardown is idempotent.  Once a successful teardown has cleared
the child handle, a second teardown — whatever its lock outcome — kills
no process and leaves the state unchanged. -/
theorem teardown_idempotent (st : SidecarState) (lockOk2 : Bool) :
    (teardown lockOk2 (teardown true st).1).2 = none ∧
    (teardown lockOk2 (teardown true st).1).1 = (teardown true st).1 := by
  cases h : st.child <;> cases lockOk2 <;> simp [teardown, h]

/-- C8: `get_api_port` returns the stored port when the lock is
acquired, and falls back to the default 9700 when the lock cannot be
acquired; being a total function it propagates no error. -/
theorem get_api_port_contract (st : SidecarState) :
    get_api_port (some st) = st.port ∧ get_api_port none = 9700 :=
  ⟨rfl, rfl⟩

/-- C9: the port stored at startup is `pick_port`'s answer — recorded
even when no launch command was resolved (`spawnRes` irrelevant, no
child recorded) or the spawn failed — and no later host operation
(query or teardown, however many) ever changes it; teardown mutates
only the child handle. -/
theorem port_set_once (net : NetEnv) (fs : FsEnv) (os : TOs)
    (arch : TArch) (spawnRes : Option Nat) (ops : List HostOp) :
    (runHost (mainInit net fs os arch spawnRes) ops).port = pick_port net ∧
    (spawn_api_server_choice fs os arch = none →
      (mainInit net fs os arch spawnRes).child = none) ∧
    (∀ lockOk st, (teardown lockOk st).1.port = st.port) := by
  refine ⟨(runHost_port ops _).trans rfl, fun h => ?_, fun lockOk st => ?_⟩
  · simp [mainInit, h]
  · cases lockOk <;> cases h : st.child <;> simp [teardown, h]

/-- Witness for C9: a concrete run in which nothing resolves and spawn
never happens, followed by a query and two teardowns; the port stays at
the value `pick_port` chose and no child was ever recorded. -/
theorem port_set_once_witness :
    (runHost (mainInit netEnvBusy fsEnvDeep .linux .x86_64 none)
        [.query, .teardownEv true, .teardownEv true]).port = 49152 ∧
    (mainInit netEnvBusy fsEnvDeep .linux .x86_64 none).child = none := by
  have h := port_set_once netEnvBusy fsEnvDeep .linux .x86_64 none
    [.query, .teardownEv true, .teardownEv true]
  exact ⟨h.1.trans (by rfl), h.2.1 (by decide)⟩

/-- Probe environment for the health checker: whether the `curl` probe
at attempt `k` reports an HTTP success, and how long that probe takes in
milliseconds (`curl --max-time 1` caps it at 1000 ms). -/
structure ProbeEnv where
  succeeds : Nat → Bool
  duration : Nat → Nat

/-- Embeds the `while start.elapsed() < timeout` loop of
`wait_for_healthy`: `k` is the attempt counter, `t` the elapsed
milliseconds at the top of the loop.  A successful probe returns `true`
immediately; a failed one costs its duration plus the 200 ms
inter-attempt sleep.  The second component is the elapsed time at
return. -/
def wait_loop (env : ProbeEnv) (timeout : Nat) (k t : Nat) : Bool × Nat :=
  if h : t < timeout then
    if env.succeeds k then (true, t + env.duration k)
    else wait_loop env timeout (k + 1) (t + env.duration k + 200)
  else (false, t)
termination_by timeout - t
decreasing_by omega

/-- Embeds `wait_for_healthy port timeout`: the loop's boolean result
(the port only picks the URL probed, which the probe environment
abstracts). -/
def wait_for_healthy (env : ProbeEnv) (timeout : Nat) : Bool :=
  (wait_loop env timeout 0 0).1

/-- Total wall-clock time at which `wait_for_healthy` returns. -/
def wait_for_healthy_elapsed (env : ProbeEnv) (timeout : Nat) : Nat :=
  (wait_loop env timeout 0 0).2

/-- Cost in milliseconds of `k` consecutive failed attempts beginning at
attempt `i`: each costs its probe duration plus the 200 ms sleep. -/
def costSum (env : ProbeEnv) : Nat → Nat → Nat
  | _, 0 => 0
  | i, k + 1 => env.duration i + 200 + costSum env (i + 1) k

/-- Time at which probe `k` starts when all earlier probes failed. -/
def probeStart (env : ProbeEnv) (k : Nat) : Nat :=
  costSum env 0 k

theorem wait_loop_succeeds (env : ProbeEnv) (timeout : Nat) :
    ∀ k i t,
      (∀ j, j < k → env.succeeds (i + j) = false) →
      t + costSum env i k < timeout →
      env.succeeds (i + k) = true →
      (wait_loop env timeout i t).1 = true := by
  intro k
  induction k with
  | zero =>
    intro i t _ ht hs
    rw [wait_loop]
    rw [dif_pos (by simpa [costSum] using ht)]
    simp only [Nat.add_zero] at hs
    simp [hs]
  | succ k ih =>
    intro i t hfail ht hs
    have hf0 : env.succeeds i = false := by
      simpa using hfail 0 (Nat.succ_pos k)
    have htlt : t < timeout := by
      simp only [costSum] at ht; omega
    rw [wait_loop, dif_pos htlt, hf0]
    simp only [Bool.false_eq_true, if_false]
    apply ih (i + 1) (t + env.duration i + 200)
    · intro j hj
      have h2 := hfail (j + 1) (by omega)
      rw [show i + 1 + j = i + (j + 1) by omega]
      exact h2
    · simp only [costSum] at ht; omega
    · rw [show i + 1 + k = i + (k + 1) by omega]
      exact hs

theorem wait_loop_never (env : ProbeEnv) (timeout : Nat)
    (hfail : ∀ j, env.succeeds j = false)
    (hdur : ∀ j, env.duration j ≤ 1000) :
    ∀ n i t, timeout - t ≤ n → t ≤ timeout + 1199 →
      (wait_loop env timeout i t).1 = false ∧
      (wait_loop env timeout i t).2 ≤ timeout + 1199 := by
  intro n
  induction n with
  | zero =>
    intro i t hn htb
    rw [wait_loop, dif_neg (by omega)]
    exact ⟨rfl, htb⟩
  | succ n ih =>
    intro i t hn htb
    by_cases ht : t < timeout
    · rw [wait_loop, dif_pos ht, hfail i]
      simp only [Bool.false_eq_true, if_false]
      have hd := hdur i
      exact ih (i + 1) (t + env.duration i + 200) (by omega) (by omega)
    · rw [wait_loop, dif_neg ht]
      exact ⟨rfl, htb⟩

/-- C4 (amended): the health check returns `true` whenever some probe
that starts before the timeout elapses succeeds (all earlier ones
having failed); it sleeps 200 ms between attempts (built into the time
accounting); and when the endpoint never responds it returns `false`
after total wall-clock time strictly less than `timeout + 1s + 200ms` —
one in-flight probe's own timeout plus one inter-attempt sleep, the
sleep being the part the original bound omitted. -/
theorem wait_for_healthy_contract (env : ProbeEnv) (timeout : Nat) :
    (∀ k, (∀ j, j < k → env.succeeds j = false) →
      probeStart env k < timeout → env.succeeds k = true →
      wait_for_healthy env timeout = true) ∧
    ((∀ j, env.succeeds j = false) → (∀ j, env.duration j ≤ 1000) →
      wait_for_healthy env timeout = false ∧
      wait_for_healthy_elapsed env timeout < timeout + 1200) := by
  constructor
  · intro k hprev hstart hk
    apply wait_loop_succeeds env timeout k 0 0
    · simpa using hprev
    · simpa [probeStart] using hstart
    · simpa using hk
  · intro hfail hdur
    have h := wait_loop_never env timeout hfail hdur (timeout + 1) 0 0
      (by omega) (by omega)
    exact ⟨h.1, by have := h.2; rw [wait_for_healthy_elapsed]; omega⟩

/-- Probe environment whose second attempt succeeds, each probe taking
300 ms. -/
def probeEnvSecond : ProbeEnv :=
  { succeeds := fun k => k == 1, duration := fun _ => 300 }

/-- Probe environment in which the endpoint never responds and every
probe runs into its full 1000 ms curl timeout. -/
def probeEnvNever : ProbeEnv :=
  { succeeds := fun _ => false, duration := fun _ => 1000 }

/-- Witness for the amended C4: with the default 10 s timeout the
second probe (starting at 500 ms) succeeds, and with a 1300 ms timeout
and a dead endpoint the checker reports failure within
1300 + 1200 ms. -/
theorem wait_for_healthy_contract_witness :
    wait_for_healthy probeEnvSecond 10000 = true ∧
    (wait_for_healthy probeEnvNever 1300 = false ∧
      wait_for_healthy_elapsed probeEnvNever 1300 < 1300 + 1200) :=
  ⟨(wait_for_healthy_contract probeEnvSecond 10000).1 1
      (by decide) (by decide) (by rfl),
   (wait_for_healthy_contract probeEnvNever 1300).2
      (fun _ => rfl) (fun _ => Nat.le_refl 1000)⟩

/-- C4 counterexample: with a 1300 ms overall timeout and an endpoint
that never responds (every probe exhausting its 1000 ms curl budget),
`wait_for_healthy` returns `false` only after 2400 ms of wall-clock
time — more than `timeout + 1s = 2300 ms`, because after the last
failed probe the loop still sleeps 200 ms before re-checking the
deadline.  This refutes the claimed `timeout + 1s` bound. -/
theorem wait_for_healthy_exceeds_claimed_bound :
    wait_for_healthy probeEnvNever 1300 = false ∧
    wait_for_healthy_elapsed probeEnvNever 1300 = 2400 ∧
    ¬ (2400 ≤ 1300 + 1000) := by
  have h0 : wait_loop probeEnvNever 1300 0 0 = wait_loop probeEnvNever 1300 1 1200 := by
    rw [wait_loop]; norm_num [probeEnvNever]
  have h1 : wait_loop probeEnvNever 1300 1 1200 = wait_loop probeEnvNever 1300 2 2400 := by
    rw [wait_loop]; norm_num [probeEnvNever]
  have h2 : wait_loop probeEnvNever 1300 2 2400 = (false, 2400) := by
    rw [wait_loop]; norm_num
  refine ⟨?_, ?_, by omega⟩
  · rw [wait_for_healthy, h0, h1, h2]
  · rw [wait_for_healthy_elapsed, h0, h1, h2]

/-- Result of one `child.try_wait()` call: the child has exited
(`Ok(Some(_))`), is still running (`Ok(None)`), or the status poll
itself failed (`Err(_)`). -/
inductive TryWaitRes where
  | exited | running | errRes
deriving DecidableEq

/-- Observable events of `kill_child`: the graceful SIGTERM, the status
poll at iteration `i` (100 ms apart), the forced `child.kill()`, and the
blocking `child.wait()` reap. -/
inductive KEvent where
  | sigterm
  | poll (i : Nat) (r : TryWaitRes)
  | forceKill
  | reapWait
deriving DecidableEq

/-- Embeds the `loop` of the Unix branch of `kill_child`.  The child's
behaviour is the oracle `b`, giving the `try_wait` result of the poll at
iteration `i` (wall clock `100·i` ms after the SIGTERM; the deadline
guard `Instant::now() < deadline` is `100·i < 5000`).  `Ok(Some(_))`
breaks out cleanly; `Ok(None)` before the deadline sleeps 100 ms and
retries; anything else — `Ok(None)` at or past the deadline, or an
`Err` from `try_wait` — falls to the catch-all arm that force-kills and
reaps.  Returns the event trace and whether the stop was clean. -/
def killLoop (b : Nat → TryWaitRes) (i : Nat) : List KEvent × Bool :=
  match b i with
  | .exited => ([.poll i .exited], true)
  | .running =>
    if h : 100 * i < 5000 then
      let rest := killLoop b (i + 1)
      (.poll i .running :: rest.1, rest.2)
    else ([.poll i .running, .forceKill, .reapWait], false)
  | .errRes => ([.poll i .errRes, .forceKill, .reapWait], false)
termination_by 50 - i
decreasing_by omega

/-- Embeds `kill_child` on Unix: send SIGTERM, then run the poll loop
from iteration 0. -/
def kill_child_unix (b : Nat → TryWaitRes) : List KEvent × Bool :=
  let r := killLoop b 0
  (.sigterm :: r.1, r.2)

/-- Embeds the `#[cfg(not(unix))]` branch of `kill_child`: skip the
graceful signal, force-kill and reap immediately. -/
def kill_child_nonunix : List KEvent × Bool :=
  ([.forceKill, .reapWait], false)

/-- The trace confirms the child was reaped before returning: either a
poll observed the exit status (`try_wait` returned `Ok(Some(_))`) or
the blocking `wait()` ran. -/
def reapConfirmed (evs : List KEvent) : Bool :=
  evs.any fun e =>
    match e with
    | .poll _ .exited => true
    | .reapWait => true
    | _ => false

theorem killLoop_clean (b : Nat → TryWaitRes) :
    ∀ n i,
      (∀ j, i ≤ j → j < i + n → b j = .running) →
      i + n ≤ 50 → b (i + n) = .exited →
      (killLoop b i).2 = true ∧
      KEvent.forceKill ∉ (killLoop b i).1 ∧
      KEvent.poll (i + n) .exited ∈ (killLoop b i).1 := by
  intro n
  induction n with
  | zero =>
    intro i _ _ hx
    simp only [Nat.add_zero] at hx
    rw [killLoop, hx]
    simp
  | succ n ih =>
    intro i hrun hle hx
    have hri : b i = .running := hrun i (Nat.le_refl i) (by omega)
    rw [killLoop, hri]
    rw [dif_pos (by omega)]
    have hrest := ih (i + 1)
      (fun j h1 h2 => hrun j (by omega) (by omega))
      (by omega)
      (by rw [show i + 1 + n = i + (n + 1) by omega]; exact hx)
    refine ⟨hrest.1, ?_, ?_⟩
    · simp only [List.mem_cons, not_or]
      exact ⟨by simp, hrest.2.1⟩
    · simp only [List.mem_cons]
      right
      rw [show i + (n + 1) = i + 1 + n by omega]
      exact hrest.2.2

theorem killLoop_deadline (b : Nat → TryWaitRes) :
    ∀ n i, 50 - i ≤ n → i ≤ 50 →
      (∀ j, i ≤ j → j ≤ 50 → b j = .running) →
      (killLoop b i).2 = false ∧
      KEvent.forceKill ∈ (killLoop b i).1 ∧
      KEvent.reapWait ∈ (killLoop b i).1 := by
  intro n
  induction n with
  | zero =>
    intro i hn hi hrun
    have hi50 : i = 50 := by omega
    subst hi50
    rw [killLoop, hrun 50 (Nat.le_refl 50) (Nat.le_refl 50)]
    rw [dif_neg (by omega)]
    simp
  | succ n ih =>
    intro i hn hi hrun
    by_cases hd : 100 * i < 5000
    · have hri : b i = .running := hrun i (Nat.le_refl i) hi
      rw [killLoop, hri, dif_pos hd]
      have hrest := ih (i + 1) (by omega) (by omega)
        (fun j h1 h2 => hrun j (by omega) h2)
      exact ⟨hrest.1, by simp [hrest.2.1], by simp [hrest.2.2]⟩
    · have hi50 : i = 50 := by omega
      subst hi50
      rw [killLoop, hrun 50 (Nat.le_refl 50) (Nat.le_refl 50)]
      rw [dif_neg (by omega)]
      simp

theorem killLoop_reaps (b : Nat → TryWaitRes) :
    ∀ n i, 50 - i ≤ n → reapConfirmed (killLoop b i).1 = true := by
  intro n
  induction n with
  | zero =>
    intro i hn
    rw [killLoop]
    cases hb : b i with
    | exited => simp [reapConfirmed]
    | running => rw [dif_neg (by omega)]; simp [reapConfirmed]
    | errRes => simp [reapConfirmed]
  | succ n ih =>
    intro i hn
    rw [killLoop]
    cases hb : b i with
    | exited => simp [reapConfirmed]
    | running =>
      by_cases hd : 100 * i < 5000
      · rw [dif_pos hd]
        have := ih (i + 1) (by omega)
        simpa [reapConfirmed] using this
      · rw [dif_neg hd]; simp [reapConfirmed]
    | errRes => simp [reapConfirmed]

theorem killLoop_polls_bounded (b : Nat → TryWaitRes) :
    ∀ n i, 50 - i ≤ n → i ≤ 50 →
      ∀ k r, KEvent.poll k r ∈ (killLoop b i).1 → k ≤ 50 := by
  intro n
  induction n with
  | zero =>
    intro i hn hi k r hmem
    rw [killLoop] at hmem
    cases hb : b i with
    | exited =>
      rw [hb] at hmem
      simp only [List.mem_cons, List.not_mem_nil, or_false] at hmem
      cases hmem; omega
    | running =>
      rw [hb, dif_neg (by omega)] at hmem
      simp only [List.mem_cons, List.not_mem_nil, or_false] at hmem
      rcases hmem with h | h | h <;> first | (cases h; omega) | cases h
    | errRes =>
      rw [hb] at hmem
      simp only [List.mem_cons, List.not_mem_nil, or_false] at hmem
      rcases hmem with h | h | h <;> first | (cases h; omega) | cases h
  | succ n ih =>
    intro i hn hi k r hmem
    rw [killLoop] at hmem
    cases hb : b i with
    | exited =>
      rw [hb] at hmem
      simp only [List.mem_cons, List.not_mem_nil, or_false] at hmem
      cases hmem; omega
    | running =>
      rw [hb] at hmem
      by_cases hd : 100 * i < 5000
      · rw [dif_pos hd] at hmem
        simp only [List.mem_cons] at hmem
        rcases hmem with h | h
        · cases h; omega
        · exact ih (i + 1) (by omega) (by omega) k r h
      · rw [dif_neg hd] at hmem
        simp only [List.mem_cons, List.not_mem_nil, or_false] at hmem
        rcases hmem with h | h | h <;> first | (cases h; omega) | cases h
    | errRes =>
      rw [hb] at hmem
      simp only [List.mem_cons, List.not_mem_nil, or_false] at hmem
      rcases hmem with h | h | h <;> first | (cases h; omega) | cases h

theorem killLoop_err (b : Nat → TryWaitRes) :
    ∀ n i,
      (∀ j, i ≤ j → j < i + n → b j = .running) →
      i + n ≤ 50 → b (i + n) = .errRes →
      (killLoop b i).2 = false ∧
      KEvent.forceKill ∈ (killLoop b i).1 ∧
      KEvent.reapWait ∈ (killLoop b i).1 ∧
      (∀ k r, KEvent.poll k r ∈ (killLoop b i).1 → k ≤ i + n) := by
  intro n
  induction n with
  | zero =>
    intro i _ _ hx
    simp only [Nat.add_zero] at hx ⊢
    rw [killLoop, hx]
    refine ⟨rfl, by simp, by simp, ?_⟩
    intro k r hmem
    simp only [List.mem_cons, List.not_mem_nil, or_false] at hmem
    rcases hmem with h | h | h <;> first | (cases h; omega) | cases h
  | succ n ih =>
    intro i hrun hle hx
    have hri : b i = .running := hrun i (Nat.le_refl i) (by omega)
    rw [killLoop, hri, dif_pos (by omega)]
    have hrest := ih (i + 1)
      (fun j h1 h2 => hrun j (by omega) (by omega)) (by omega)
      (by rw [show i + 1 + n = i + (n + 1) by omega]; exact hx)
    refine ⟨hrest.1, by simp [hrest.2.1], by simp [hrest.2.2.1], ?_⟩
    intro k r hmem
    simp only [List.mem_cons] at hmem
    rcases hmem with h | h
    · cases h; omega
    · have := hrest.2.2.2 k r h; omega

/-- C1: the termination sequence.  On Unix, `kill_child` first sends the
graceful SIGTERM; it polls `try_wait` every 100 ms, only at iterations
within the 5 s window (indices ≤ 50); if the child exits at some poll in
that window the stop is clean and no force-kill happens; if the child is
still running at every poll through the deadline, it force-kills and
then blocks in `wait()`; on non-Unix platforms it skips straight to
force-kill and `wait()`, with no graceful signal; and in every case —
clean, forced, or non-Unix — the child is confirmed reaped (an observed
exit status or a completed `wait()`) before `kill_child` returns. -/
theorem kill_child_terminate (b : Nat → TryWaitRes) :
    (kill_child_unix b).1.head? = some .sigterm ∧
    (∀ k, k ≤ 50 → (∀ j, j < k → b j = .running) → b k = .exited →
      (kill_child_unix b).2 = true ∧
      KEvent.forceKill ∉ (kill_child_unix b).1) ∧
    ((∀ j, j ≤ 50 → b j = .running) →
      (kill_child_unix b).2 = false ∧
      KEvent.forceKill ∈ (kill_child_unix b).1 ∧
      KEvent.reapWait ∈ (kill_child_unix b).1) ∧
    reapConfirmed (kill_child_unix b).1 = true ∧
    (∀ k r, KEvent.poll k r ∈ (kill_child_unix b).1 → k ≤ 50) ∧
    (kill_child_nonunix = ([.forceKill, .reapWait], false) ∧
      KEvent.sigterm ∉ kill_child_nonunix.1 ∧
      reapConfirmed kill_child_nonunix.1 = true) := by
  refine ⟨rfl, ?_, ?_, ?_, ?_, rfl, by decide, by decide⟩
  · intro k hk hprev hx
    have h := killLoop_clean b k 0 (fun j _ hj => hprev j (by omega))
      (by omega) (by simpa using hx)
    exact ⟨h.1, by simp [kill_child_unix, h.2.1]⟩
  · intro hrun
    have h := killLoop_deadline b 51 0 (by omega) (by omega)
      (fun j _ hj => hrun j hj)
    exact ⟨h.1, by simp [kill_child_unix, h.2.1], by simp [kill_child_unix, h.2.2]⟩
  · have h := killLoop_reaps b 51 0 (by omega)
    simpa [kill_child_unix, reapConfirmed] using h
  · intro k r hmem
    simp only [kill_child_unix, List.mem_cons] at hmem
    rcases hmem with h | h
    · cases h
    · exact killLoop_polls_bounded b 51 0 (by omega) (by omega) k r h

/-- Child behaviour that exits immediately at the first poll. -/
def bExitsNow : Nat → TryWaitRes := fun _ => .exited

/-- Child behaviour that never exits. -/
def bNeverExits : Nat → TryWaitRes := fun _ => .running

/-- Witness for C1: a child that exits at the first poll is stopped
cleanly with no force-kill; a child that never exits is force-killed and
reaped after the deadline. -/
theorem kill_child_terminate_witness :
    ((kill_child_unix bExitsNow).2 = true ∧
      KEvent.forceKill ∉ (kill_child_unix bExitsNow).1) ∧
    ((kill_child_unix bNeverExits).2 = false ∧
      KEvent.forceKill ∈ (kill_child_unix bNeverExits).1 ∧
      KEvent.reapWait ∈ (kill_child_unix bNeverExits).1) :=
  ⟨(kill_child_terminate bExitsNow).2.1 0 (by omega)
      (fun j hj => absurd hj (Nat.not_lt_zero j)) rfl,
   (kill_child_terminate bNeverExits).2.2.1 (fun _ _ => rfl)⟩

/-- C10: if `try_wait` itself errors at poll `m` of the graceful wait
(all earlier polls having seen the child still running), `kill_child`
escalates right there: the stop is forced, `kill()` and `wait()` both
run, and no poll beyond index `m` happens — the 5-second deadline is not
waited out. -/
theorem kill_child_poll_error_escalates (b : Nat → TryWaitRes) (m : Nat)
    (hm : m ≤ 50) (hrun : ∀ j, j < m → b j = .running)
    (herr : b m = .errRes) :
    (kill_child_unix b).2 = false ∧
    KEvent.forceKill ∈ (kill_child_unix b).1 ∧
    KEvent.reapWait ∈ (kill_child_unix b).1 ∧
    (∀ k r, KEvent.poll k r ∈ (kill_child_unix b).1 → k ≤ m) := by
  have h := killLoop_err b m 0 (fun j _ hj => hrun j (by omega))
    (by omega) (by simpa using herr)
  refine ⟨h.1, by simp [kill_child_unix, h.2.1],
    by simp [kill_child_unix, h.2.2.1], ?_⟩
  intro k r hmem
  simp only [kill_child_unix, List.mem_cons] at hmem
  rcases hmem with hh | hh
  · cases hh
  · simpa using h.2.2.2 k r hh

/-- Child behaviour that is running for the first three polls, after
which `try_wait` errors. -/
def bErrAtThree : Nat → TryWaitRes :=
  fun j => if j < 3 then .running else .errRes

/-- Witness for C10: with `try_wait` erroring at poll 3 (300 ms in), the
stop is forced with kill and reap, and no poll past index 3 occurs even
though the deadline allowed 50. -/
theorem kill_child_poll_error_escalates_witness :
    (kill_child_unix bErrAtThree).2 = false ∧
    KEvent.forceKill ∈ (kill_child_unix bErrAtThree).1 ∧
    KEvent.reapWait ∈ (kill_child_unix bErrAtThree).1 ∧
    (∀ k r, KEvent.poll k r ∈ (kill_child_unix bErrAtThree).1 → k ≤ 3) :=
  kill_child_poll_error_escalates bErrAtThree 3 (by omega)
    (fun j hj => by simp [bErrAtThree, hj]) (by decide)
